import Mathlib

set_option maxHeartbeats 1000000

/-! Shallow embedding of the file-registry and link-lifecycle engine of
    fileshaare.py. Database tables (users, groups, files, links, stats) are
    modelled as lists of rows in insertion order, timestamps as natural
    numbers, and each SQL statement executed by a handler as a pure function
    on a DB state. The Telegram transport (message sending, forwarding,
    keyboards) is external and has no effect on the registry state, so it is
    not modelled; the forwarded storage message id and the randomly generated
    codes are passed in as parameters. -/

/-- Row of the users table (the SERIAL id column is never read back, so it is
    omitted; user_id is the UNIQUE key used by ON CONFLICT). -/
structure UserRow where
  user_id : Nat
  username : Option String
  first_name : Option String
  deriving DecidableEq

/-- Row of the groups table. total_files (INTEGER) and total_size (BIGINT)
    are signed and updated incrementally by SQL UPDATE statements. -/
structure GroupRow where
  id : Nat
  name : String
  owner_id : Nat
  created_at : Nat
  total_files : Int
  total_size : Int
  deriving DecidableEq

/-- Row of the files table. -/
structure FileRow where
  id : Nat
  group_id : Nat
  serial : Nat
  unique_id : String
  file_name : String
  file_type : String
  file_size : Nat
  storage_message_id : Nat
  uploader_id : Nat
  created_at : Nat
  deriving DecidableEq

/-- Row of the links table. -/
structure LinkRow where
  id : Nat
  code : String
  file_id : Nat
  group_id : Nat
  owner_id : Nat
  expires_at : Option Nat
  max_downloads : Option Nat
  downloads : Nat
  created_at : Nat
  active : Bool
  deriving DecidableEq

/-- Row of the stats table. -/
structure StatRow where
  user_id : Nat
  uploads : Nat
  downloads : Nat
  last_active : Option Nat
  deriving DecidableEq

/-- Whole database state, plus the SERIAL counters that assign ids to new
    files and links rows. -/
structure DB where
  users : List UserRow
  groups : List GroupRow
  files : List FileRow
  links : List LinkRow
  stats : List StatRow
  next_file_id : Nat
  next_link_id : Nat
  deriving DecidableEq

/-- A Telegram user as seen by the handlers. -/
structure UserInfo where
  id : Nat
  username : Option String
  first_name : Option String
  deriving DecidableEq

/-- is_admin from the source: membership of the user id in the configured
    ADMIN_IDS list (passed explicitly instead of read from the environment). -/
def is_admin (admins : List Nat) (uid : Nat) : Bool :=
  admins.contains uid

/-- INSERT INTO users ... ON CONFLICT (user_id) DO NOTHING, from ensure_user. -/
def ensure_user_row (u : UserInfo) : List UserRow → List UserRow
  | [] => [⟨u.id, u.username, u.first_name⟩]
  | r :: rest =>
    if r.user_id = u.id then r :: rest else r :: ensure_user_row u rest

/-- INSERT INTO stats (user_id,last_active) VALUES ($1,NOW())
    ON CONFLICT (user_id) DO UPDATE SET last_active=NOW(), from ensure_user.
    A fresh row gets the column defaults uploads = 0, downloads = 0. -/
def touch_stats (uid now : Nat) : List StatRow → List StatRow
  | [] => [⟨uid, 0, 0, some now⟩]
  | s :: rest =>
    if s.user_id = uid then { s with last_active := some now } :: rest
    else s :: touch_stats uid now rest

/-- INSERT INTO stats (user_id,uploads,last_active) VALUES ($1,1,NOW())
    ON CONFLICT (user_id) DO UPDATE SET uploads = stats.uploads + 1,
    last_active = NOW(), from handle_upload. -/
def bump_uploads (uid now : Nat) : List StatRow → List StatRow
  | [] => [⟨uid, 1, 0, some now⟩]
  | s :: rest =>
    if s.user_id = uid then
      { s with uploads := s.uploads + 1, last_active := some now } :: rest
    else s :: bump_uploads uid now rest

/-- ensure_user from the source: registers the user and touches the stats
    row; no other table is read or written. -/
def ensure_user (u : UserInfo) (now : Nat) (db : DB) : DB :=
  { db with users := ensure_user_row u db.users
          , stats := touch_stats u.id now db.stats }

/-- cmd_start from the source. The handler calls ensure_user and replies with
    a welcome message; it never reads the /start deep-link payload (the args
    parameter here), so the payload has no effect on the state. -/
def cmd_start (u : UserInfo) (args : List String) (now : Nat) (db : DB) : DB :=
  ensure_user u now db

/-- A sequence of /start attempts (user, payload arguments, time), processed
    in order by cmd_start. -/
def start_attempts (attempts : List (UserInfo × List String × Nat)) (db : DB) : DB :=
  attempts.foldl (fun d a => cmd_start a.1 a.2.1 a.2.2 d) db

/-- The media attached to an upload message, as inspected by handle_upload
    (msg.document / msg.photo / msg.video; audio and voice reach the handler
    through the message filters but are rejected as unsupported). -/
inductive Media where
  | document (file_name : String) (file_size : Nat)
  | photo (file_unique_id : String) (file_size : Nat)
  | video (file_name : Option String) (file_unique_id : String) (file_size : Nat)
  | audio
  | voice
  deriving DecidableEq

/-- The name/size extraction chain of handle_upload; none means the handler
    replies Unsupported file type and stops. -/
def mediaInfo : Media → Option (String × Nat)
  | Media.document n s => some (n, s)
  | Media.photo uid s => some ("photo_" ++ uid ++ ".jpg", s)
  | Media.video n uid s => some (n.getD ("video_" ++ uid), s)
  | Media.audio => none
  | Media.voice => none

/-- Serial numbers of the files currently in a group, in table order
    (SELECT serial FROM files WHERE group_id = gid). -/
def serialsOf (db : DB) (gid : Nat) : List Nat :=
  (db.files.filter (fun f => f.group_id == gid)).map (fun f => f.serial)

/-- MAX(serial) over a group, with 0 for an empty group (COALESCE(...,0)). -/
def maxSerial (db : DB) (gid : Nat) : Nat :=
  (serialsOf db gid).foldr max 0

/-- SELECT COALESCE(MAX(serial),0)+1 FROM files WHERE group_id = $1,
    from handle_upload. -/
def nextSerial (db : DB) (gid : Nat) : Nat :=
  maxSerial db gid + 1

/-- handle_upload from the source. Parameters: the sender, the selected
    upload group (ctx.user_data, absent or falsy 0 aborts), the message
    media, the storage-forward result (none models a raised transport error,
    which skips every database statement of the try block), the generated
    unique_id and the current time. Returns the new state and the serial
    assigned to the stored file, if any. -/
def handle_upload (u : UserInfo) (gid? : Option Nat) (media : Media)
    (fwd : Option Nat) (ukey : String) (now : Nat) (db : DB) : DB × Option Nat :=
  let db1 := ensure_user u now db
  match gid? with
  | none => (db1, none)
  | some gid =>
    if gid = 0 then (db1, none) else
    match mediaInfo media with
    | none => (db1, none)
    | some fi =>
      match fwd with
      | none => (db1, none)
      | some sid =>
        let serial := nextSerial db1 gid
        let row : FileRow :=
          ⟨db1.next_file_id, gid, serial, ukey, fi.1, "file", fi.2, sid, u.id, now⟩
        ({ db1 with
            files := db1.files ++ [row]
          , next_file_id := db1.next_file_id + 1
          , groups := db1.groups.map (fun g =>
              if g.id = gid then
                { g with total_files := g.total_files + 1
                       , total_size := g.total_size + (fi.2 : Int) }
              else g)
          , stats := bump_uploads u.id now db1.stats }, some serial)

/-- N successive successful uploads into the same group (a fixed document,
    each forward succeeding), as performed by repeated handle_upload calls. -/
def uploadN (u : UserInfo) (gid : Nat) (ukey : String) (now : Nat) : Nat → DB → DB
  | 0, db => db
  | Nat.succ n, db =>
    uploadN u gid ukey now n
      (handle_upload u (some gid) (Media.document "f" 100) (some 1) ukey now db).1

/-- expires_at computation of create_share_link: None unless expires_seconds
    is truthy (present and nonzero), in which case now + expires_seconds. -/
def shareExpiry (expires_seconds : Option Nat) (now : Nat) : Option Nat :=
  match expires_seconds with
  | some s => if s = 0 then none else some (now + s)
  | none => none

/-- create_share_link from the source: looks up the file id for
    (group_id, serial); if absent returns None, otherwise inserts a links row
    with the column defaults downloads = 0 and active = TRUE and returns the
    generated code (passed in as a parameter here). -/
def create_share_link (group_id serial owner_id : Nat)
    (expires_seconds : Option Nat) (mdl : Option Nat) (code : String)
    (now : Nat) (db : DB) : DB × Option String :=
  match db.files.find? (fun f => f.group_id == group_id && f.serial == serial) with
  | none => (db, none)
  | some f =>
    ({ db with
        links := db.links ++
          [⟨db.next_link_id, code, f.id, group_id, owner_id,
            shareExpiry expires_seconds now, mdl, 0, now, true⟩]
      , next_link_id := db.next_link_id + 1 }, some code)

/-- SELECT owner_id FROM groups WHERE id = $1 (fetchval), from the delete
    branch of callback_handler. -/
def ownerOf (db : DB) (gid : Nat) : Option Nat :=
  (db.groups.find? (fun g => g.id == gid)).map (fun g => g.owner_id)

/-- Outcome of the delete branch of callback_handler. -/
inductive DeleteResult where
  | notFound
  | notPermitted
  | deleted
  deriving DecidableEq

/-- The delete branch of callback_handler: fetches the files row for
    (group_id, serial); missing row is File not found; a requester who is
    neither the group owner nor an admin is Not permitted; otherwise the
    files row is deleted and the group total_files counter is decremented
    (the source does not touch total_size). The subsequent best-effort
    delete of the storage message is external and wrapped in try/except, so
    it cannot affect the database state. -/
def do_delete (requester : Nat) (admins : List Nat) (gid serial : Nat)
    (db : DB) : DB × DeleteResult :=
  match db.files.find? (fun f => f.group_id == gid && f.serial == serial) with
  | none => (db, DeleteResult.notFound)
  | some row =>
    if ownerOf db gid ≠ some requester ∧ is_admin admins requester = false then
      (db, DeleteResult.notPermitted)
    else
      ({ db with
          files := db.files.filter (fun f => f.id != row.id)
        , groups := db.groups.map (fun g =>
            if g.id = gid then { g with total_files := g.total_files - 1 }
            else g) }, DeleteResult.deleted)

/-- Whether the link is selected by the expiry sweep query
    (active = TRUE AND expires_at IS NOT NULL AND expires_at <= NOW()). -/
def linkExpired (now : Nat) (l : LinkRow) : Bool :=
  l.active && (match l.expires_at with
               | some t => decide (t ≤ now)
               | none => false)

/-- UPDATE links SET active = FALSE WHERE id = $1, applied by the expiry
    worker to each row selected by its sweep query. -/
def reapOne (now : Nat) (l : LinkRow) : LinkRow :=
  if linkExpired now l then { l with active := false } else l

/-- One cycle of expiry_worker from the source: the sweep query selects the
    expired active links and each is deactivated by id; no other table is
    read or written by the loop body. -/
def expiry_worker_step (now : Nat) (db : DB) : DB :=
  { db with links := db.links.map (reapOne now) }

/-- Case-insensitive character comparison, as performed by ILIKE. -/
def charEqCI (a b : Char) : Bool :=
  Char.toLower a == Char.toLower b

/-- All suffixes of a character list, the longest first, ending with the
    empty suffix. -/
def allSuffixes : List Char → List (List Char)
  | [] => [[]]
  | a :: rest => (a :: rest) :: allSuffixes rest

/-- SQL LIKE/ILIKE pattern matching (pattern, then text): an unescaped
    percent matches any character sequence, an unescaped underscore matches
    exactly one character, a backslash escapes the following character, and
    every other character matches itself case-insensitively. A pattern
    ending in a lone backslash is an error in SQL (and unreachable from
    do_search, whose pattern ends in a percent); it matches nothing here. -/
def likeMatch : List Char → List Char → Bool
  | [], t => t.isEmpty
  | p :: ps, t =>
    if p = '%' then (allSuffixes t).any (fun s => likeMatch ps s)
    else if p = '_' then
      match t with
      | [] => false
      | _ :: ts => likeMatch ps ts
    else if p = '\\' then
      match ps with
      | [] => false
      | c :: ps2 =>
        match t with
        | [] => false
        | d :: ts => charEqCI c d && likeMatch ps2 ts
    else
      match t with
      | [] => false
      | d :: ts => charEqCI p d && likeMatch ps ts

/-- text ILIKE pattern, over the raw strings. -/
def ilike (text pattern : String) : Bool :=
  likeMatch pattern.toList text.toList

/-- Whether needle is a case-insensitive prefix of hay (hay first). -/
def startsWithCI : List Char → List Char → Bool
  | _, [] => true
  | [], _ :: _ => false
  | a :: as, b :: bs => charEqCI b a && startsWithCI as bs

/-- Whether needle occurs contiguously inside hay, case-insensitively. -/
def hasSubstrCI : List Char → List Char → Bool
  | [], needle => needle.isEmpty
  | a :: rest, needle => startsWithCI (a :: rest) needle || hasSubstrCI rest needle

/-- Case-insensitive substring containment of the pattern in the name: the
    reading of the search claimed by the spec. It coincides with the source
    predicate ilike name (percent ++ q ++ percent) exactly for search
    strings free of the ILIKE metacharacters percent, underscore and
    backslash (proved below); on strings containing them the two diverge. -/
def sub_ilike (hay pat : String) : Bool :=
  hasSubstrCI hay.toList pat.toList

/-- do_search from the source: SELECT group_id,serial,file_name FROM files
    WHERE file_name ILIKE $1 LIMIT 25, with the raw search text interpolated
    unescaped between two percent signs. There is no ORDER BY clause, so
    rows come back in table order. -/
def do_search (q : String) (db : DB) : List FileRow :=
  (db.files.filter (fun f => ilike f.file_name ("%" ++ q ++ "%"))).take 25

/-- The URL-safe base64 alphabet used by base64.urlsafe_b64encode. -/
def b64url_alphabet : List Char :=
  ("ABCDEFGHIJKLMNOPQRSTUVWXYZabcdefghijklmnopqrstuvwxyz0123456789-_").toList

/-- Table lookup of one 6-bit group (values are below 64 by construction;
    the mod keeps the lookup total). -/
def b64face (i : Nat) : Char :=
  b64url_alphabet.getD (i % 64) 'A'

/-- The 6-bit groups of the base64 encoding of a byte string, without
    padding characters (rstrip of = removes exactly the padding, since = is
    not in the alphabet). -/
def b64chunks : List Nat → List Nat
  | [] => []
  | [b1] => [b1 / 4, b1 % 4 * 16]
  | [b1, b2] => [b1 / 4, b1 % 4 * 16 + b2 / 16, b2 % 16 * 4]
  | b1 :: b2 :: b3 :: rest =>
    b1 / 4 :: (b1 % 4 * 16 + b2 / 16) :: (b2 % 16 * 4 + b3 / 64) :: b3 % 64 ::
      b64chunks rest

/-- gen_code from the source:
    base64.urlsafe_b64encode(uuid.uuid4().bytes).decode().rstrip(=)[:18].
    The 16 random bytes of the UUID are the input (reduced mod 256, as bytes
    are). -/
def gen_code (bytes : List Nat) : String :=
  String.mk (((b64chunks (bytes.map (fun b => b % 256))).map b64face).take 18)

/-- Membership in the URL-safe base64 alphabet. -/
def isUrlSafeChar (c : Char) : Prop :=
  ('A' ≤ c ∧ c ≤ 'Z') ∨ ('a' ≤ c ∧ c ≤ 'z') ∨ ('0' ≤ c ∧ c ≤ '9') ∨
    c = '-' ∨ c = '_'

instance (c : Char) : Decidable (isUrlSafeChar c) := by
  unfold isUrlSafeChar; infer_instance

/-- Per-user uploads counter as displayed from the stats table, 0 when the
    user has no row. -/
def uploadsOf (stats : List StatRow) (uid : Nat) : Nat :=
  ((stats.find? (fun s => s.user_id == uid)).map (fun s => s.uploads)).getD 0

/-- An empty database (SERIAL counters start at 1). -/
def dbEmpty : DB := ⟨[], [], [], [], [], 1, 1⟩

/-- Concrete file row used by the witnesses: serial 1 in group 1. -/
def docFile : FileRow := ⟨1, 1, 1, "KEY", "report.pdf", "file", 5000, 11, 7, 0⟩

/-- Concrete group row owned by user 7, aggregates covering docFile. -/
def docGroup : GroupRow := ⟨1, "Docs", 7, 0, 1, 5000⟩

/-- Concrete database with one group and one file. -/
def docDB : DB := ⟨[], [docGroup], [docFile], [], [], 2, 1⟩

/-- Expired link: expires_at 5, still active, never downloaded. -/
def expiredLink : LinkRow := ⟨1, "EXPCODE", 1, 1, 7, some 5, some 3, 0, 0, true⟩

/-- Database holding only the expired link. -/
def expiredDB : DB := ⟨[], [], [], [expiredLink], [], 1, 2⟩

/-- Unbounded link (expires_at NULL), used as a reaper no-op witness. -/
def staleLink : LinkRow := ⟨1, "KEEP", 1, 1, 7, none, none, 0, 0, true⟩

/-- Older matching file for the search counterexample (created_at 1). -/
def searchFileA : FileRow := ⟨1, 1, 1, "K1", "alpha.txt", "file", 10, 11, 7, 1⟩

/-- Newer matching file for the search counterexample (created_at 2). -/
def searchFileB : FileRow := ⟨2, 1, 2, "K2", "beta-alpha.txt", "file", 20, 12, 7, 2⟩

/-- Database with two files matching the pattern alpha, older one first in
    table order. -/
def searchDB : DB := ⟨[], [], [searchFileA, searchFileB], [], [], 3, 1⟩

/-! Helper lemmas shared by the claim theorems. -/

theorem cmd_start_preserves_links (u : UserInfo) (args : List String)
    (now : Nat) (db : DB) : (cmd_start u args now db).links = db.links := rfl

theorem uploadsOf_touch_stats (l : List StatRow) (uid now vid : Nat) :
    uploadsOf (touch_stats uid now l) vid = uploadsOf l vid := by
  induction l with
  | nil =>
    by_cases h : uid = vid
    · subst h; simp [touch_stats, uploadsOf, List.find?]
    · simp [touch_stats, uploadsOf, List.find?, beq_eq_false_iff_ne.mpr h]
  | cons s rest ih =>
    simp only [touch_stats]
    by_cases h : s.user_id = uid
    · rw [if_pos h]
      unfold uploadsOf
      by_cases h2 : s.user_id = vid
      · rw [List.find?_cons_of_pos _ (by simp [h2]),
            List.find?_cons_of_pos _ (by simp [h2])]
        rfl
      · rw [List.find?_cons_of_neg _ (by simp [h2]),
            List.find?_cons_of_neg _ (by simp [h2])]
    · rw [if_neg h]
      unfold uploadsOf
      by_cases h2 : s.user_id = vid
      · rw [List.find?_cons_of_pos _ (by simp [h2]),
            List.find?_cons_of_pos _ (by simp [h2])]
      · rw [List.find?_cons_of_neg _ (by simp [h2]),
            List.find?_cons_of_neg _ (by simp [h2])]
        exact ih

theorem ensure_user_files (u : UserInfo) (now : Nat) (db : DB) :
    (ensure_user u now db).files = db.files := rfl

theorem ensure_user_groups (u : UserInfo) (now : Nat) (db : DB) :
    (ensure_user u now db).groups = db.groups := rfl

theorem ensure_user_links (u : UserInfo) (now : Nat) (db : DB) :
    (ensure_user u now db).links = db.links := rfl

theorem handle_upload_abort (u : UserInfo) (gid? : Option Nat) (media : Media)
    (fwd : Option Nat) (ukey : String) (now : Nat) (db : DB)
    (h : gid? = none ∨ mediaInfo media = none) :
    (handle_upload u gid? media fwd ukey now db).1 = ensure_user u now db := by
  rcases h with h | h
  · subst h; rfl
  · cases gid? with
    | none => rfl
    | some gid =>
      by_cases hg : gid = 0 <;> simp [handle_upload, hg, h]

/-! Claim theorems. -/

/-- Claim C2 (code defect evidence): the source has no resolve operation at
    all. The deep links minted by create_share_link point at /start, but
    cmd_start never reads the start payload, so any sequence of resolution
    attempts with any payloads leaves every Link row untouched: downloads is
    never incremented, no attempt ever succeeds or returns Exhausted, and
    the claimed at-most-k-successes accounting never happens. -/
theorem cmd_start_never_resolves (attempts : List (UserInfo × List String × Nat))
    (db : DB) : (start_attempts attempts db).links = db.links := by
  induction attempts generalizing db with
  | nil => rfl
  | cons a rest ih =>
    calc (start_attempts (a :: rest) db).links
        = (start_attempts rest (cmd_start a.1 a.2.1 a.2.2 db)).links := rfl
      _ = (cmd_start a.1 a.2.1 a.2.2 db).links := ih _
      _ = db.links := rfl

/-- Claim C3 (code defect evidence): a Link whose expiry (5) is in the past
    at resolution time (10) is not marked inactive by a /start resolution
    attempt carrying its code, and no Expired outcome exists: cmd_start
    ignores the payload, so the link stays active with downloads 0. -/
theorem cmd_start_expired_link_untouched :
    5 < 10 ∧
    (cmd_start ⟨9, none, none⟩ ["EXPCODE"] 10 expiredDB).links = [expiredLink] ∧
    expiredLink.expires_at = some 5 ∧
    expiredLink.active = true ∧
    expiredLink.downloads = 0 := by
  refine ⟨by decide, rfl, rfl, rfl, rfl⟩

/-- Claim C6 (code defect evidence): a successful delete by the group owner
    removes the files row and decrements total_files, but leaves total_size
    unchanged (5000 instead of 0), although the deleted file accounted for
    all 5000 bytes of the aggregate. -/
theorem delete_total_size_unchanged :
    (do_delete 7 [] 1 1 docDB).2 = DeleteResult.deleted ∧
    (do_delete 7 [] 1 1 docDB).1.files = [] ∧
    (do_delete 7 [] 1 1 docDB).1.groups = [⟨1, "Docs", 7, 0, 0, 5000⟩] := by
  decide

theorem b64face_urlsafe (i : Nat) : isUrlSafeChar (b64face i) := by
  have h : ∀ j : Fin 64, isUrlSafeChar (b64url_alphabet.getD j.val 'A') := by decide
  exact h ⟨i % 64, Nat.mod_lt _ (by decide)⟩

theorem b64chunks_length (bs : List Nat) :
    (b64chunks bs).length =
      4 * (bs.length / 3) + (if bs.length % 3 = 0 then 0 else bs.length % 3 + 1) := by
  induction bs using b64chunks.induct with
  | case1 => simp [b64chunks]
  | case2 b1 => simp [b64chunks]
  | case3 b1 b2 => simp [b64chunks]
  | case4 b1 b2 b3 rest ih =>
    simp only [b64chunks, List.length_cons, ih]
    have h3 : (rest.length + 1 + 1 + 1) % 3 = rest.length % 3 := by omega
    have h4 : (rest.length + 1 + 1 + 1) / 3 = rest.length / 3 + 1 := by omega
    rw [h3, h4]
    by_cases h0 : rest.length % 3 = 0 <;> simp [h0] <;> omega

/-- Claim C9: every generated code is exactly 18 characters long and every
    character is from the URL-safe base64 alphabet, for any 16-byte UUID
    input. -/
theorem gen_code_format (bytes : List Nat) (h : bytes.length = 16) :
    (gen_code bytes).length = 18 ∧
    ∀ c ∈ (gen_code bytes).toList, isUrlSafeChar c := by
  have hlen : (b64chunks (bytes.map (fun b => b % 256))).length = 22 := by
    rw [b64chunks_length]
    simp [h]
  constructor
  · show (((b64chunks (bytes.map (fun b => b % 256))).map b64face).take 18).length = 18
    rw [List.length_take, List.length_map, hlen]
    decide
  · intro c hc
    have hc2 : c ∈ (b64chunks (bytes.map (fun b => b % 256))).map b64face :=
      (List.take_sublist _ _).mem hc
    obtain ⟨i, _, hface⟩ := List.mem_map.mp hc2
    exact hface ▸ b64face_urlsafe i

/-- Witness for C9 at the all-zero 16-byte input. -/
theorem gen_code_format_witness :
    (gen_code (List.replicate 16 0)).length = 18 ∧
    ∀ c ∈ (gen_code (List.replicate 16 0)).toList, isUrlSafeChar c :=
  gen_code_format (List.replicate 16 0) (by decide)

/-- Claim C5: deleting an existing Item as a requester who is neither the
    owner of the owning group nor an administrator yields Not permitted and
    leaves the whole database state unchanged, in particular the Item row,
    total_files and total_size. -/
theorem delete_permission_denied (requester : Nat) (admins : List Nat)
    (gid serial : Nat) (db : DB) (row : FileRow) (o : Nat)
    (hrow : db.files.find? (fun f => f.group_id == gid && f.serial == serial) = some row)
    (howner : ownerOf db gid = some o)
    (hne : requester ≠ o)
    (hadm : is_admin admins requester = false) :
    do_delete requester admins gid serial db = (db, DeleteResult.notPermitted) := by
  have hcond : ownerOf db gid ≠ some requester ∧ is_admin admins requester = false := by
    refine ⟨?_, hadm⟩
    rw [howner]
    intro hcontra
    injection hcontra with h
    exact hne h.symm
  unfold do_delete
  rw [hrow]
  exact if_pos hcond

/-- Witness for C5: user 8 (not the owner 7, not an admin) cannot delete the
    only file of the Docs group and nothing changes. -/
theorem delete_permission_denied_witness :
    do_delete 8 [] 1 1 docDB = (docDB, DeleteResult.notPermitted) :=
  delete_permission_denied 8 [] 1 1 docDB docFile 7 rfl rfl (by decide) rfl

/-- Claim C7: one cycle of the expiry worker rewrites only the links table;
    a link whose active flag changes was active with an expiry at or before
    the sweep time; an unbounded or unexpired link is returned unchanged;
    and no field other than active is ever modified. -/
theorem expiry_worker_step_spec (now : Nat) (db : DB) :
    ((expiry_worker_step now db).users = db.users ∧
     (expiry_worker_step now db).groups = db.groups ∧
     (expiry_worker_step now db).files = db.files ∧
     (expiry_worker_step now db).stats = db.stats) ∧
    (expiry_worker_step now db).links = db.links.map (reapOne now) ∧
    (∀ l : LinkRow, (reapOne now l).active ≠ l.active →
      l.active = true ∧ ∃ t, l.expires_at = some t ∧ t ≤ now) ∧
    (∀ l : LinkRow, (l.expires_at = none ∨ ∃ t, l.expires_at = some t ∧ now < t) →
      reapOne now l = l) ∧
    (∀ l : LinkRow,
      (reapOne now l).id = l.id ∧ (reapOne now l).code = l.code ∧
      (reapOne now l).file_id = l.file_id ∧ (reapOne now l).group_id = l.group_id ∧
      (reapOne now l).owner_id = l.owner_id ∧ (reapOne now l).expires_at = l.expires_at ∧
      (reapOne now l).max_downloads = l.max_downloads ∧
      (reapOne now l).downloads = l.downloads ∧
      (reapOne now l).created_at = l.created_at) := by
  refine ⟨⟨rfl, rfl, rfl, rfl⟩, rfl, ?_, ?_, ?_⟩
  · intro l hl
    unfold reapOne at hl
    by_cases hexp : linkExpired now l = true
    · unfold linkExpired at hexp
      obtain ⟨hact, hmatch⟩ := Bool.and_eq_true_iff.mp hexp
      refine ⟨hact, ?_⟩
      cases he : l.expires_at with
      | none => rw [he] at hmatch; simp at hmatch
      | some t =>
        rw [he] at hmatch
        exact ⟨t, rfl, of_decide_eq_true hmatch⟩
    · rw [if_neg hexp] at hl
      exact absurd rfl hl
  · intro l hl
    unfold reapOne
    rw [if_neg]
    unfold linkExpired
    rcases hl with he | ⟨t, he, ht⟩
    · rw [he]; simp
    · rw [he]
      simp [Nat.not_le.mpr ht]
  · intro l
    unfold reapOne
    by_cases hexp : linkExpired now l = true
    · rw [if_pos hexp]
      exact ⟨rfl, rfl, rfl, rfl, rfl, rfl, rfl, rfl, rfl⟩
    · rw [if_neg hexp]
      exact ⟨rfl, rfl, rfl, rfl, rfl, rfl, rfl, rfl, rfl⟩

/-- Witness for C7: the sweep at time 10 leaves the unbounded link KEEP
    exactly as it is. -/
theorem expiry_worker_step_spec_witness :
    reapOne 10 staleLink = staleLink :=
  (expiry_worker_step_spec 10 dbEmpty).2.2.2.1 staleLink (Or.inl rfl)

/-- Claim C4: create_share_link returns None exactly when no file with the
    given (group, serial) exists; otherwise it appends one links row whose
    downloads counter is 0, whose active flag is TRUE, whose expires_at is
    now + ttl for a present nonzero ttl and NULL for a zero or absent ttl,
    and it returns the generated code; the files table is untouched. -/
theorem create_share_link_spec (gid serial owner : Nat) (ttl : Option Nat)
    (mdl : Option Nat) (code : String) (now : Nat) (db : DB) :
    ((create_share_link gid serial owner ttl mdl code now db).2 = none ↔
      ∀ f ∈ db.files, ¬ (f.group_id = gid ∧ f.serial = serial)) ∧
    (∀ f, db.files.find? (fun x => x.group_id == gid && x.serial == serial) = some f →
      (create_share_link gid serial owner ttl mdl code now db).2 = some code ∧
      (create_share_link gid serial owner ttl mdl code now db).1.files = db.files ∧
      (create_share_link gid serial owner ttl mdl code now db).1.links =
        db.links ++ [⟨db.next_link_id, code, f.id, gid, owner,
                      shareExpiry ttl now, mdl, 0, now, true⟩] ∧
      (∀ s, ttl = some s → s ≠ 0 → shareExpiry ttl now = some (now + s)) ∧
      ((ttl = none ∨ ttl = some 0) → shareExpiry ttl now = none)) := by
  constructor
  · cases hfind : db.files.find? (fun x => x.group_id == gid && x.serial == serial) with
    | none =>
      have hall := List.find?_eq_none.mp hfind
      simp only [create_share_link, hfind]
      constructor
      · intro _ f hf hand
        have := hall f hf
        simp [hand.1, hand.2] at this
      · intro _; trivial
    | some f =>
      have hpf : (f.group_id == gid && f.serial == serial) = true := by
        have := List.find?_some hfind
        simpa using this
      have hmem : f ∈ db.files := List.mem_of_find?_eq_some hfind
      simp only [create_share_link, hfind]
      constructor
      · intro hc; exact absurd hc (by simp)
      · intro hall
        obtain ⟨h1, h2⟩ := Bool.and_eq_true_iff.mp hpf
        exact absurd ⟨beq_iff_eq.mp h1, beq_iff_eq.mp h2⟩ (hall f hmem)
  · intro f hfind
    refine ⟨?_, ?_, ?_, ?_, ?_⟩
    · simp only [create_share_link, hfind]
    · simp only [create_share_link, hfind]
    · simp only [create_share_link, hfind]
    · intro s hs hs0
      subst hs
      simp [shareExpiry, hs0]
    · intro hz
      rcases hz with hz | hz <;> subst hz <;> simp [shareExpiry]

/-- Witness for C4: issuing a link for the only file of docDB returns the
    generated code. -/
theorem create_share_link_spec_witness :
    (create_share_link 1 1 7 (some 600) (some 2) "CODE" 100 docDB).2 = some "CODE" :=
  ((create_share_link_spec 1 1 7 (some 600) (some 2) "CODE" 100 docDB).2
    docFile rfl).1

/-- Claim C10: an upload message with no upload group selected, or whose
    media is neither a document nor a photo nor a video, inserts no files
    row, leaves every group row (hence every total_files and total_size) and
    every link untouched, and changes no uploads counter of any user; only
    the users registration and the stats last-active touch of the sender
    remain. -/
theorem handle_upload_no_media_frame (u : UserInfo) (gid? : Option Nat)
    (media : Media) (fwd : Option Nat) (ukey : String) (now : Nat) (db : DB)
    (h : gid? = none ∨ mediaInfo media = none) :
    (handle_upload u gid? media fwd ukey now db).1.files = db.files ∧
    (handle_upload u gid? media fwd ukey now db).1.groups = db.groups ∧
    (handle_upload u gid? media fwd ukey now db).1.links = db.links ∧
    ∀ uid, uploadsOf (handle_upload u gid? media fwd ukey now db).1.stats uid =
             uploadsOf db.stats uid := by
  rw [handle_upload_abort u gid? media fwd ukey now db h]
  refine ⟨rfl, rfl, rfl, ?_⟩
  intro uid
  exact uploadsOf_touch_stats db.stats u.id now uid

/-- Witness for C10: a voice message sent while group 1 is selected stores
    nothing. -/
theorem handle_upload_no_media_frame_witness :
    (handle_upload ⟨7, none, none⟩ (some 1) Media.voice (some 1) "K" 5 docDB).1.files
      = docDB.files :=
  (handle_upload_no_media_frame ⟨7, none, none⟩ (some 1) Media.voice (some 1)
    "K" 5 docDB (Or.inr rfl)).1

theorem allSuffixes_any_isEmpty (t : List Char) :
    (allSuffixes t).any (fun s => s.isEmpty) = true := by
  induction t with
  | nil => rfl
  | cons a rest ih => simp [allSuffixes, ih]

theorem startsWithCI_nil (t : List Char) : startsWithCI t [] = true := by
  cases t <;> rfl

theorem likeMatch_nil (t : List Char) : likeMatch [] t = t.isEmpty := by
  cases t <;> rfl

theorem likeMatch_cons (p : Char) (ps t : List Char) :
    likeMatch (p :: ps) t =
      if p = '%' then (allSuffixes t).any (fun s => likeMatch ps s)
      else if p = '_' then
        match t with
        | [] => false
        | _ :: ts => likeMatch ps ts
      else if p = '\\' then
        match ps with
        | [] => false
        | c :: ps2 =>
          match t with
          | [] => false
          | d :: ts => charEqCI c d && likeMatch ps2 ts
      else
        match t with
        | [] => false
        | d :: ts => charEqCI p d && likeMatch ps ts := by
  cases ps <;> cases t <;> rfl

theorem likeMatch_lit_pct : ∀ (lit : List Char),
    (∀ c ∈ lit, c ≠ '%' ∧ c ≠ '_' ∧ c ≠ '\\') →
    ∀ t : List Char, likeMatch (lit ++ ['%']) t = startsWithCI t lit := by
  intro lit
  induction lit with
  | nil =>
    intro _ t
    show likeMatch ['%'] t = startsWithCI t []
    rw [startsWithCI_nil, likeMatch_cons, if_pos rfl]
    simp only [likeMatch_nil]
    exact allSuffixes_any_isEmpty t
  | cons c lit ih =>
    intro hlit t
    have hc := hlit c (List.mem_cons_self c lit)
    have hrest : ∀ x ∈ lit, x ≠ '%' ∧ x ≠ '_' ∧ x ≠ '\\' :=
      fun x hx => hlit x (List.mem_cons_of_mem c hx)
    show likeMatch (c :: (lit ++ ['%'])) t = startsWithCI t (c :: lit)
    rw [likeMatch_cons, if_neg hc.1, if_neg hc.2.1, if_neg hc.2.2]
    cases t with
    | nil => rfl
    | cons d ts =>
      show (charEqCI c d && likeMatch (lit ++ ['%']) ts) =
        (charEqCI c d && startsWithCI ts lit)
      rw [ih hrest ts]

theorem suffixes_any_eq_hasSubstrCI (t needle : List Char) :
    (allSuffixes t).any (fun s => startsWithCI s needle) = hasSubstrCI t needle := by
  induction t with
  | nil => cases needle <;> rfl
  | cons a rest ih =>
    show (startsWithCI (a :: rest) needle ||
          (allSuffixes rest).any (fun s => startsWithCI s needle)) =
      (startsWithCI (a :: rest) needle || hasSubstrCI rest needle)
    rw [ih]

theorem ilike_pct_eq_sub_ilike (text q : String)
    (hq : ∀ c ∈ q.toList, c ≠ '%' ∧ c ≠ '_' ∧ c ≠ '\\') :
    ilike text ("%" ++ q ++ "%") = sub_ilike text q := by
  show likeMatch ("%" ++ q ++ "%").toList text.toList =
    hasSubstrCI text.toList q.toList
  have hpat : ("%" ++ q ++ "%").toList = '%' :: (q.toList ++ ['%']) := rfl
  rw [hpat, likeMatch_cons, if_pos rfl]
  simp only [likeMatch_lit_pct q.toList hq]
  exact suffixes_any_eq_hasSubstrCI text.toList q.toList

/-- Claim C8 counterexample: two failures at concrete inputs. Ordering: both
    files match the search text alpha and the result lists the older file
    (created_at 1) before the newer one (created_at 2) — the query has no
    ORDER BY, so nothing orders by recency. Matching: the underscore in the
    search text al_ha is an ILIKE wildcard on the unescaped user input, so
    alpha.txt is returned although its name does not contain al_ha as a
    case-insensitive substring. -/
theorem do_search_counterexample :
    do_search "alpha" searchDB = [searchFileA, searchFileB] ∧
    searchFileA.created_at < searchFileB.created_at ∧
    ¬ List.Pairwise (fun a b => b.created_at ≤ a.created_at)
        (do_search "alpha" searchDB) ∧
    do_search "al_ha" searchDB = [searchFileA, searchFileB] ∧
    sub_ilike searchFileA.file_name "al_ha" = false := by
  refine ⟨by decide, by decide, ?_, by decide, by decide⟩
  intro hpair
  rw [show do_search "alpha" searchDB = [searchFileA, searchFileB] from by decide]
    at hpair
  have := List.rel_of_pairwise_cons hpair (List.mem_singleton.mpr rfl)
  exact absurd this (by decide)

/-- Claim C8 amended: do_search returns, in table (insertion) order and
    truncated to 25 rows, exactly the files across all groups whose name
    matches the ILIKE pattern built by wrapping the raw search text in
    percent signs — so percent, underscore and backslash in the text act as
    wildcards and escape; for search text free of those metacharacters this
    predicate is exactly case-insensitive substring containment. Every
    returned file matches, the result is a sublist of the files table (no
    recency ordering), and when at most 25 files match, every matching file
    is returned. -/
theorem do_search_amended (q : String) (db : DB) :
    (∀ f ∈ do_search q db, ilike f.file_name ("%" ++ q ++ "%") = true) ∧
    List.Sublist (do_search q db) db.files ∧
    ((db.files.filter (fun f => ilike f.file_name ("%" ++ q ++ "%"))).length ≤ 25 →
      ∀ f ∈ db.files, ilike f.file_name ("%" ++ q ++ "%") = true →
        f ∈ do_search q db) ∧
    ((∀ c ∈ q.toList, c ≠ '%' ∧ c ≠ '_' ∧ c ≠ '\\') →
      ∀ f : FileRow, ilike f.file_name ("%" ++ q ++ "%") = sub_ilike f.file_name q) := by
  refine ⟨?_, ?_, ?_, ?_⟩
  · intro f hf
    have hf2 : f ∈ db.files.filter (fun f => ilike f.file_name ("%" ++ q ++ "%")) :=
      (List.take_sublist _ _).mem hf
    have := List.mem_filter.mp hf2
    simpa using this.2
  · exact (List.take_sublist _ _).trans (List.filter_sublist _)
  · intro hlen f hmem hmatch
    unfold do_search
    rw [List.take_of_length_le hlen]
    exact List.mem_filter.mpr ⟨hmem, by simpa using hmatch⟩
  · intro hq f
    exact ilike_pct_eq_sub_ilike f.file_name q hq

/-- Witness for C8 amended: the older matching file is in the result set for
    the wildcard-free search text alpha, for which the ILIKE predicate
    coincides with substring containment. -/
theorem do_search_amended_witness :
    searchFileA ∈ do_search "alpha" searchDB ∧
    ilike searchFileA.file_name ("%" ++ "alpha" ++ "%") =
      sub_ilike searchFileA.file_name "alpha" :=
  ⟨(do_search_amended "alpha" searchDB).2.2.1 (by decide) searchFileA
     (by decide) (by decide),
   (do_search_amended "alpha" searchDB).2.2.2 (by decide) searchFileA⟩

theorem foldr_max_init (l : List Nat) (a : Nat) :
    l.foldr max a = max (l.foldr max 0) a := by
  induction l with
  | nil => simp
  | cons x l ih => simp [List.foldr, ih, Nat.max_assoc]

theorem foldr_max_range (k : Nat) : (List.range' 1 k).foldr max 0 = k := by
  induction k with
  | zero => rfl
  | succ k ih =>
    rw [List.range'_1_concat, List.foldr_append]
    simp only [List.foldr]
    rw [foldr_max_init, ih]
    omega

theorem serialsOf_upload_step (u : UserInfo) (gid : Nat) (ukey : String)
    (now : Nat) (db : DB) (hg : gid ≠ 0) :
    serialsOf
      (handle_upload u (some gid) (Media.document "f" 100) (some 1) ukey now db).1
      gid
      = serialsOf db gid ++ [maxSerial db gid + 1] := by
  simp only [handle_upload, mediaInfo]
  rw [if_neg hg]
  simp [serialsOf, maxSerial, nextSerial, ensure_user, List.filter_append]

theorem uploadN_serials (N : Nat) : ∀ (u : UserInfo) (gid : Nat) (ukey : String)
    (now : Nat) (db : DB) (k : Nat), gid ≠ 0 →
    serialsOf db gid = List.range' 1 k →
    serialsOf (uploadN u gid ukey now N db) gid = List.range' 1 (k + N) := by
  induction N with
  | zero =>
    intro u gid ukey now db k hg hdb
    simpa [uploadN] using hdb
  | succ n ih =>
    intro u gid ukey now db k hg hdb
    have hmax : maxSerial db gid = k := by
      unfold maxSerial
      rw [hdb]
      exact foldr_max_range k
    have hstep := serialsOf_upload_step u gid ukey now db hg
    rw [hmax, hdb] at hstep
    have hstep2 : serialsOf
        (handle_upload u (some gid) (Media.document "f" 100) (some 1) ukey now db).1
        gid = List.range' 1 (k + 1) := by
      rw [hstep, List.range'_1_concat]
      simp [Nat.add_comm]
    have hrec := ih u gid ukey now
      (handle_upload u (some gid) (Media.document "f" 100) (some 1) ukey now db).1
      (k + 1) hg hstep2
    show serialsOf (uploadN u gid ukey now n
      (handle_upload u (some gid) (Media.document "f" 100) (some 1) ukey now db).1)
        gid = List.range' 1 (k + (n + 1))
    rw [show k + (n + 1) = (k + 1) + n from by omega]
    exact hrec

/-- Claim C1: a successful upload stores its file under the serial
    MAX(serial) + 1 of its group (1 for an empty group, since the COALESCE
    default is 0), and N uploads performed one after another into an empty
    group produce exactly the serials 1..N, without duplicates or gaps. -/
theorem upload_serials_one_to_n :
    (∀ (u : UserInfo) (gid : Nat) (media : Media) (fi : String × Nat) (sid : Nat)
       (ukey : String) (now : Nat) (db : DB),
       gid ≠ 0 → mediaInfo media = some fi →
       (handle_upload u (some gid) media (some sid) ukey now db).2 =
         some (maxSerial db gid + 1) ∧
       ∃ row : FileRow,
         (handle_upload u (some gid) media (some sid) ukey now db).1.files =
           db.files ++ [row] ∧
         row.serial = maxSerial db gid + 1 ∧ row.group_id = gid) ∧
    (∀ (u : UserInfo) (gid : Nat) (ukey : String) (now : Nat) (N : Nat) (db : DB),
       gid ≠ 0 → serialsOf db gid = [] →
       serialsOf (uploadN u gid ukey now N db) gid = List.range' 1 N) := by
  constructor
  · intro u gid media fi sid ukey now db hg hmedia
    simp only [handle_upload]
    rw [hmedia, if_neg hg]
    exact ⟨rfl, ⟨_, rfl, rfl, rfl⟩⟩
  · intro u gid ukey now N db hg hempty
    have := uploadN_serials N u gid ukey now db 0 hg (by rw [hempty]; rfl)
    simpa using this

/-- Witness for C1: the first upload into the empty database gets serial 1
    (MAX default 0, plus 1) and three successive uploads yield serials
    1, 2, 3. -/
theorem upload_serials_one_to_n_witness :
    (handle_upload ⟨7, none, none⟩ (some 1) (Media.document "report.pdf" 5000)
        (some 11) "K" 5 dbEmpty).2 = some (maxSerial dbEmpty 1 + 1) ∧
    serialsOf (uploadN ⟨7, none, none⟩ 1 "K" 5 3 dbEmpty) 1 = List.range' 1 3 :=
  ⟨(upload_serials_one_to_n.1 ⟨7, none, none⟩ 1 (Media.document "report.pdf" 5000)
      ("report.pdf", 5000) 11 "K" 5 dbEmpty (by decide) rfl).1,
   upload_serials_one_to_n.2 ⟨7, none, none⟩ 1 "K" 5 3 dbEmpty (by decide) rfl⟩
